import Mathlib

/-!
Verification development for the Aave credit-scoring pipeline
(`src/scorer.py`, class `CreditScorer`).

The pipeline is embedded shallowly:
  * arbitrary-precision `Decimal` values are modelled as rationals `ℚ`;
  * float arithmetic of the scoring stage is modelled as exact real
    arithmetic (`ℝ`), with `np.log1p x = Real.log (1 + x)`;
  * a JSON field handed to a fallible external parser (`Decimal(...)`,
    `pd.to_datetime(...)`, `.lower()`) is modelled by a small inductive
    recording whether the external call succeeds and with which value;
  * `pandas` group-by/pivot aggregation is modelled per wallet by
    filtering the transaction list, and group keys are the sorted
    distinct non-null wallet addresses (pandas `groupby`/`pivot_table`
    sort keys and drop null keys);
  * `sklearn.MinMaxScaler(feature_range=(0, 1000))` is modelled by its
    documented fit/transform algebra, including the replacement of a
    zero data range by `1`, and `.astype(int)` is numpy truncation
    toward zero.
-/

namespace AaveScoring

/-- A JSON field value that `scorer.py` hands to `Decimal(...)`:
either a decimal string parsing to the rational `q`, or a value on which
`Decimal` raises (malformed string, wrong type, ...). -/
inductive DecField where
  | val (q : ℚ)
  | bad
deriving DecidableEq

/-- The `actionData.assetPriceUSD` field: a plain decimal string, a nested
object carrying a decimal string under the inner key (the source reads
`price_str[...]` when the field is a dict), or a nested object missing that
inner key, whose lookup raises `KeyError`. -/
inductive PriceField where
  | plain (f : DecField)
  | nested (f : DecField)
  | nestedNoKey
deriving DecidableEq

/-- The `timestamp` field as seen by `pd.to_datetime(-, unit='s')`:
a numeric value (Unix seconds), or a value on which the conversion
raises (e.g. a non-numeric string). -/
inductive TsField where
  | tnum (n : ℤ)
  | tbad
deriving DecidableEq

/-- The `action` field: a string (on which `.lower()` succeeds), or a
present non-string value, on which `.lower()` raises `AttributeError`. -/
inductive ActField where
  | astr (s : String)
  | abad
deriving DecidableEq

/-- One raw input record.  `record.get(-)` of an absent key is `none`.
An absent `actionData` object is the same as both of its sub-fields
absent, since the source defaults it to the empty dict. -/
structure RawTransactionRecord where
  userWallet : Option String
  timestamp : Option TsField
  action : Option ActField
  amount : Option DecField
  assetPriceUSD : Option PriceField
deriving DecidableEq

/-- One parsed record, as appended to `parsed_records` in
`load_and_parse_data`.  `timestamp = none` models pandas `NaT`
(produced when the raw field is absent). -/
structure NormalizedTransaction where
  userAddress : Option String
  timestamp : Option ℤ
  action : String
  amountUSD : ℚ
deriving DecidableEq

/-- `amount = Decimal(amount_str) if amount_str is not None else Decimal(0)`:
`none` result means the `Decimal` call raised. -/
def extractAmount : Option DecField → Option ℚ
  | none => some 0
  | some (.val q) => some q
  | some .bad => none

/-- `price = Decimal(price_str[inner] if isinstance(price_str, dict) else price_str)`:
`none` result means the lookup or the `Decimal` call raised (including
`Decimal(None)` when the field is absent). -/
def extractPrice : Option PriceField → Option ℚ
  | none => none
  | some (.plain (.val q)) => some q
  | some (.plain .bad) => none
  | some (.nested (.val q)) => some q
  | some (.nested .bad) => none
  | some .nestedNoKey => none

/-- The inner `try`: `amount_usd = float(amount * price)`, with the bare
`except` substituting `0.0` on any failure of the numeric extraction. -/
def computeAmountUSD (r : RawTransactionRecord) : ℚ :=
  match extractAmount r.amount, extractPrice r.assetPriceUSD with
  | some a, some p => a * p
  | _, _ => 0

/-- Python `str.lower()` (the action labels are ASCII, where it is
plain per-character lowercasing). -/
def pyLower (s : String) : String := ⟨s.data.map Char.toLower⟩

/-- `pd.to_datetime(record.get('timestamp'), unit='s')`: an absent field
gives `NaT` (`none`), a numeric field converts, anything else raises —
note this call sits OUTSIDE the inner `try` of the parser. -/
def parseTimestamp : Option TsField → Except Unit (Option ℤ)
  | none => .ok none
  | some (.tnum n) => .ok (some n)
  | some .tbad => .error ()

/-- `record.get('action', 'unknown').lower()`: absent field defaults to
the literal `'unknown'`; a present non-string raises — also OUTSIDE the
inner `try`. -/
def parseAction : Option ActField → Except Unit String
  | none => .ok (pyLower "unknown")
  | some (.astr s) => .ok (pyLower s)
  | some .abad => .error ()

/-- One iteration of the parsing loop: builds the dict appended to
`parsed_records`.  The `amountUSD` computation is protected by its own
`try/except`; the timestamp and action conversions are not, so their
exceptions escape this record's processing. -/
def parseRecord (r : RawTransactionRecord) : Except Unit NormalizedTransaction := do
  let ts ← parseTimestamp r.timestamp
  let act ← parseAction r.action
  .ok { userAddress := r.userWallet, timestamp := ts, action := act,
        amountUSD := computeAmountUSD r }

/-- The whole parsing loop of `load_and_parse_data`: an exception escaping
any record's processing is caught by the outer `except`, which makes the
method return `False` with no transaction store built (`none` here);
otherwise every record contributes exactly one parsed transaction, in
input order. -/
def loadAndParse (records : List RawTransactionRecord) : Option (List NormalizedTransaction) :=
  records.mapM (fun r => (parseRecord r).toOption)

/-- `np.min` over a nonempty collection (also the `min` aggregate of
pandas); `none` on the empty collection. -/
def listMin {K : Type} [LinearOrder K] : List K → Option K
  | [] => none
  | x :: xs => some (xs.foldl min x)

/-- `np.max` over a nonempty collection; `none` on the empty collection. -/
def listMax {K : Type} [LinearOrder K] : List K → Option K
  | [] => none
  | x :: xs => some (xs.foldl max x)

/-- The wallet's transaction group: `groupby('userAddress')` rows for key
`w`.  Rows whose `userAddress` is null belong to no group (pandas
`groupby` drops null keys). -/
def walletTxs (txs : List NormalizedTransaction) (w : String) : List NormalizedTransaction :=
  txs.filter (fun t => t.userAddress == some w)

/-- The pivot-table cell `sum_<a>` for one wallet group: total `amountUSD`
of the group's transactions with action `a` (`0` when the wallet has none,
by the pivot's `fill_value=0` / the frame-level `.get(-, 0)` default). -/
def sumAction (txs : List NormalizedTransaction) (a : String) : ℚ :=
  ((txs.filter (fun t => t.action == a)).map (fun t => t.amountUSD)).sum

/-- The pivot-table cell `count_<a>` for one wallet group. -/
def countAction (txs : List NormalizedTransaction) (a : String) : ℕ :=
  (txs.filter (fun t => t.action == a)).length

/-- The non-`NaT` timestamps of a group (pandas min/max skip `NaT`). -/
def walletTimestamps (txs : List NormalizedTransaction) : List ℤ :=
  txs.filterMap (fun t => t.timestamp)

/-- `(last_tx - first_tx).dt.days`: whole days, truncated; `last ≥ first`
always, so integer division is exact truncation.  A group all of whose
timestamps are `NaT` yields `NaN` in the source (which would later make
the scaler raise); that unreachable-in-practice corner is represented by
`0` here and no theorem below touches it. -/
def accountAge (txs : List NormalizedTransaction) : ℤ :=
  match listMin (walletTimestamps txs), listMax (walletTimestamps txs) with
  | some f, some l => (l - f) / 86400
  | _, _ => 0

/-- The feature row that `engineer_features` builds for one wallet. -/
structure WalletFeatures where
  account_age_days : ℤ
  sum_deposit : ℚ
  sum_borrow : ℚ
  sum_repay : ℚ
  liquidation_count : ℕ
  repayment_ratio : ℚ
  ltv_proxy : ℚ
deriving DecidableEq

/-- `engineer_features` for one wallet group.  The ratio divisions are
exact rational divisions; `ℚ` totalises `x / 0 = 0` where numpy float
division would give `inf`/`NaN`, so theorems below only use the ratio
fields where the denominator is proved nonzero. -/
def engineerFeatures (txs : List NormalizedTransaction) : WalletFeatures :=
  { account_age_days := accountAge txs
    sum_deposit := sumAction txs "deposit"
    sum_borrow := sumAction txs "borrow"
    sum_repay := sumAction txs "repay"
    liquidation_count := countAction txs "liquidationcall"
    repayment_ratio := sumAction txs "repay" / (sumAction txs "borrow" + 1)
    ltv_proxy := sumAction txs "borrow" / (sumAction txs "deposit" + 1) }

/-- Lexicographic codepoint comparison on character lists — the order
Python (and hence pandas group-key sorting) uses on strings. -/
def charListLe : List Char → List Char → Bool
  | [], _ => true
  | _ :: _, [] => false
  | a :: as, b :: bs => if a = b then charListLe as bs else decide (a < b)

/-- Python string `<=` (codepoint lexicographic). -/
def keyLe (a b : String) : Bool := charListLe a.data b.data

/-- Insertion into a sorted key list (ascending codepoint order, the
order pandas uses for group keys). -/
def insertKey (s : String) : List String → List String
  | [] => [s]
  | t :: ts => if keyLe s t then s :: t :: ts else t :: insertKey s ts

/-- Sorting of the group keys. -/
def sortKeys : List String → List String
  | [] => []
  | s :: ss => insertKey s (sortKeys ss)

/-- The group keys of `groupby('userAddress')`: the distinct non-null
wallet addresses, in sorted order. -/
def walletKeys (txs : List NormalizedTransaction) : List String :=
  sortKeys (txs.filterMap (fun t => t.userAddress)).dedup

/-- The raw score formula of `calculate_scores` (base 500, age, log-volume,
clipped repayment bonus, liquidation penalty, clipped leverage penalty);
`np.log1p x = Real.log (1 + x)`, `clip(upper=c) = min - c`. -/
noncomputable def rawScore (f : WalletFeatures) : ℝ :=
  500 + (f.account_age_days : ℝ) * 0.1
    + Real.log (1 + ((f.sum_deposit : ℝ) + (f.sum_borrow : ℝ))) * 5
    + min ((f.repayment_ratio : ℝ) - 1) 1 * 100
    - (f.liquidation_count : ℝ) * 250
    - min (f.ltv_proxy : ℝ) 2 * 150

/-- sklearn `_handle_zeros_in_scale`: a zero data range is replaced by 1
before dividing. -/
def handleZeros {K : Type} [LinearOrderedField K] (d : K) : K :=
  if d = 0 then 1 else d

/-- `MinMaxScaler.fit`: `scale_ = (1000 - 0) / handle_zeros(data_max - data_min)`. -/
def mmScale {K : Type} [LinearOrderedField K] (mn mx : K) : K :=
  1000 / handleZeros (mx - mn)

/-- `MinMaxScaler.fit`: `min_ = 0 - data_min * scale_`. -/
def mmMin {K : Type} [LinearOrderedField K] (mn mx : K) : K :=
  0 - mn * mmScale mn mx

/-- numpy `.astype(int)`: truncation toward zero. -/
def npTruncInt {K : Type} [LinearOrderedField K] [FloorRing K] (x : K) : ℤ :=
  if x < 0 then -⌊-x⌋ else ⌊x⌋

/-- One entry of `scaler.fit_transform(...).astype(int)`:
`transform x = x * scale_ + min_`, then the integer cast. -/
def rescaleOne {K : Type} [LinearOrderedField K] [FloorRing K] (mn mx x : K) : ℤ :=
  npTruncInt (x * mmScale mn mx + mmMin mn mx)

/-- `scaler.fit_transform(score.values.reshape(-1,1)).astype(int)` on the
population's raw scores (fit on the data min/max, then transform each
entry; the scaler raises on an empty population, which the model maps
to the empty list — no claim concerns the empty population). -/
def rescaleScores {K : Type} [LinearOrderedField K] [FloorRing K] (xs : List K) : List ℤ :=
  match listMin xs, listMax xs with
  | some mn, some mx => xs.map (rescaleOne mn mx)
  | _, _ => []

/-- The population's raw scores, one per group key, in key order. -/
noncomputable def populationRaws (txs : List NormalizedTransaction) : List ℝ :=
  (walletKeys txs).map (fun w => rawScore (engineerFeatures (walletTxs txs w)))

/-- The final score table of `calculate_scores`: wallet address paired
with its integer credit score, in key order. -/
noncomputable def creditScores (txs : List NormalizedTransaction) : List (String × ℤ) :=
  (walletKeys txs).zip (rescaleScores (populationRaws txs))

/-- The pipeline from raw records to the score table (`none` when
`load_and_parse_data` fails and the run stops). -/
noncomputable def runPipeline (records : List RawTransactionRecord) :
    Option (List (String × ℤ)) :=
  (loadAndParse records).map creditScores

/-- Modelled from the spec: the spec's own population-rescaling formula
`creditScore = round_to_int((raw - min_raw) / (max_raw - min_raw) * 1000)`
with round-to-nearest, stated for comparison with the source's
truncating `rescaleOne`. -/
def specRescaleOne {K : Type} [LinearOrderedField K] [FloorRing K] (mn mx x : K) : ℤ :=
  round ((x - mn) / (mx - mn) * 1000)

/-! ### Helper lemmas -/

theorem foldl_min_le_init {K : Type} [LinearOrder K] (l : List K) (a : K) :
    l.foldl min a ≤ a := by
  induction l generalizing a with
  | nil => exact le_refl a
  | cons b t ih => exact le_trans (ih (min a b)) (min_le_left a b)

theorem foldl_min_le_mem {K : Type} [LinearOrder K] (l : List K) (a x : K) (hx : x ∈ l) :
    l.foldl min a ≤ x := by
  induction l generalizing a with
  | nil => cases hx
  | cons b t ih =>
    rcases List.mem_cons.mp hx with h | h
    · subst h
      exact le_trans (foldl_min_le_init t (min a x)) (min_le_right a x)
    · exact ih (min a b) h

theorem foldl_min_eq_or_mem {K : Type} [LinearOrder K] (l : List K) (a : K) :
    l.foldl min a = a ∨ l.foldl min a ∈ l := by
  induction l generalizing a with
  | nil => exact Or.inl rfl
  | cons b t ih =>
    rcases ih (min a b) with h | h
    · rcases min_choice a b with hm | hm
      · exact Or.inl (by rw [List.foldl_cons, h, hm])
      · exact Or.inr (by rw [List.foldl_cons, h, hm]; exact List.mem_cons_self b t)
    · exact Or.inr (List.mem_cons_of_mem b h)

theorem foldl_max_ge_init {K : Type} [LinearOrder K] (l : List K) (a : K) :
    a ≤ l.foldl max a := by
  induction l generalizing a with
  | nil => exact le_refl a
  | cons b t ih => exact le_trans (le_max_left a b) (ih (max a b))

theorem foldl_max_ge_mem {K : Type} [LinearOrder K] (l : List K) (a x : K) (hx : x ∈ l) :
    x ≤ l.foldl max a := by
  induction l generalizing a with
  | nil => cases hx
  | cons b t ih =>
    rcases List.mem_cons.mp hx with h | h
    · subst h
      exact le_trans (le_max_right a x) (foldl_max_ge_init t (max a x))
    · exact ih (max a b) h

theorem foldl_max_eq_or_mem {K : Type} [LinearOrder K] (l : List K) (a : K) :
    l.foldl max a = a ∨ l.foldl max a ∈ l := by
  induction l generalizing a with
  | nil => exact Or.inl rfl
  | cons b t ih =>
    rcases ih (max a b) with h | h
    · rcases max_choice a b with hm | hm
      · exact Or.inl (by rw [List.foldl_cons, h, hm])
      · exact Or.inr (by rw [List.foldl_cons, h, hm]; exact List.mem_cons_self b t)
    · exact Or.inr (List.mem_cons_of_mem b h)

theorem listMin_le {K : Type} [LinearOrder K] {xs : List K} {mn : K}
    (h : listMin xs = some mn) : ∀ x ∈ xs, mn ≤ x := by
  cases xs with
  | nil => simp [listMin] at h
  | cons a l =>
    rw [listMin, Option.some_inj] at h
    intro x hx
    rcases List.mem_cons.mp hx with hxa | hxl
    · subst hxa; rw [← h]; exact foldl_min_le_init l x
    · rw [← h]; exact foldl_min_le_mem l a x hxl

theorem listMin_mem {K : Type} [LinearOrder K] {xs : List K} {mn : K}
    (h : listMin xs = some mn) : mn ∈ xs := by
  cases xs with
  | nil => simp [listMin] at h
  | cons a l =>
    rw [listMin, Option.some_inj] at h
    rcases foldl_min_eq_or_mem l a with h1 | h1
    · rw [← h, h1]; exact List.mem_cons_self a l
    · rw [← h]; exact List.mem_cons_of_mem a h1

theorem listMax_ge {K : Type} [LinearOrder K] {xs : List K} {mx : K}
    (h : listMax xs = some mx) : ∀ x ∈ xs, x ≤ mx := by
  cases xs with
  | nil => simp [listMax] at h
  | cons a l =>
    rw [listMax, Option.some_inj] at h
    intro x hx
    rcases List.mem_cons.mp hx with hxa | hxl
    · subst hxa; rw [← h]; exact foldl_max_ge_init l x
    · rw [← h]; exact foldl_max_ge_mem l a x hxl

theorem listMax_mem {K : Type} [LinearOrder K] {xs : List K} {mx : K}
    (h : listMax xs = some mx) : mx ∈ xs := by
  cases xs with
  | nil => simp [listMax] at h
  | cons a l =>
    rw [listMax, Option.some_inj] at h
    rcases foldl_max_eq_or_mem l a with h1 | h1
    · rw [← h, h1]; exact List.mem_cons_self a l
    · rw [← h]; exact List.mem_cons_of_mem a h1

theorem rescaleOne_eq_floor {K : Type} [LinearOrderedField K] [FloorRing K]
    (mn mx x : K) (hlt : mn < mx) (hx : mn ≤ x) :
    rescaleOne mn mx x = ⌊(x - mn) / (mx - mn) * 1000⌋ := by
  have hne : mx - mn ≠ 0 := sub_ne_zero.mpr hlt.ne'
  have harg : x * mmScale mn mx + mmMin mn mx = (x - mn) / (mx - mn) * 1000 := by
    rw [mmMin, mmScale, handleZeros, if_neg hne]
    field_simp
    ring
  have hnonneg : 0 ≤ (x - mn) / (mx - mn) * 1000 :=
    mul_nonneg (div_nonneg (sub_nonneg.mpr hx) (sub_pos.mpr hlt).le) (by norm_num)
  rw [rescaleOne, harg, npTruncInt, if_neg (not_lt.mpr hnonneg)]

theorem floor_thousand {K : Type} [LinearOrderedField K] [FloorRing K] :
    ⌊(1000 : K)⌋ = 1000 := by
  have : ((1000 : ℤ) : K) = (1000 : K) := by norm_num
  rw [← this, Int.floor_intCast]

theorem rescaleScores_length {K : Type} [LinearOrderedField K] [FloorRing K]
    (xs : List K) : (rescaleScores xs).length = xs.length := by
  cases xs with
  | nil => rfl
  | cons a l => simp [rescaleScores, listMin, listMax]

theorem rescaleScores_pair {K : Type} [LinearOrderedField K] [FloorRing K]
    (a b : K) (h : b < a) : rescaleScores [a, b] = [1000, 0] := by
  have hmin : listMin [a, b] = some b := by
    simp [listMin, min_eq_right h.le]
  have hmax : listMax [a, b] = some a := by
    simp [listMax, max_eq_left h.le]
  have hne : a - b ≠ 0 := sub_ne_zero.mpr h.ne'
  have h1 : rescaleOne b a a = 1000 := by
    rw [rescaleOne_eq_floor b a a h h.le, div_self hne, one_mul, floor_thousand]
  have h2 : rescaleOne b a b = 0 := by
    rw [rescaleOne_eq_floor b a b h le_rfl, sub_self, zero_div, zero_mul, Int.floor_zero]
  rw [rescaleScores, hmin, hmax]
  simp [h1, h2]

theorem mem_insertKey (s w : String) (l : List String) :
    w ∈ insertKey s l ↔ w = s ∨ w ∈ l := by
  induction l with
  | nil => simp [insertKey]
  | cons t ts ih =>
    rw [insertKey]
    by_cases h : keyLe s t = true
    · simp [h]
    · simp only [Bool.not_eq_true] at h
      simp [h, ih]
      tauto

theorem mem_sortKeys (w : String) (l : List String) :
    w ∈ sortKeys l ↔ w ∈ l := by
  induction l with
  | nil => simp [sortKeys]
  | cons s ss ih => rw [sortKeys, mem_insertKey, ih]; simp

/-! ### Claim theorems -/

/-- C1 (counterexample): on the population of raw scores `[0, 2, 3]` the
code's rescaling gives the middle wallet `⌊2000/3⌋ = 666`, while the
spec's `round_to_int` formula gives `667` — the final integer cast
truncates, it does not round to nearest. -/
theorem rescale_rounding_counterexample :
    rescaleScores ([0, 2, 3] : List ℚ) = [0, 666, 1000] ∧
    specRescaleOne (0 : ℚ) 3 2 = 667 := by
  constructor
  · norm_num [rescaleScores, listMin, listMax, rescaleOne, npTruncInt, mmScale, mmMin,
      handleZeros, Int.floor_eq_iff]
  · rw [specRescaleOne, round_eq]
    norm_num [Int.floor_eq_iff]

/-- C1 (amended): for a non-degenerate population (`max_raw ≠ min_raw`),
each wallet's final creditScore equals the min-max rescaled raw score
`(raw - min_raw) / (max_raw - min_raw) * 1000` TRUNCATED to an integer
(equal to the floor, the rescaled values being non-negative) — not
rounded to nearest. -/
theorem rescale_eq_floor_of_minmax {K : Type} [LinearOrderedField K] [FloorRing K]
    (xs : List K) (mn mx : K) (hmn : listMin xs = some mn) (hmx : listMax xs = some mx)
    (hne : mx ≠ mn) :
    rescaleScores xs = xs.map (fun x => ⌊(x - mn) / (mx - mn) * 1000⌋) := by
  have hlt : mn < mx := lt_of_le_of_ne (listMin_le hmn mx (listMax_mem hmx)) (Ne.symm hne)
  rw [rescaleScores, hmn, hmx]
  exact List.map_congr_left fun x hx => rescaleOne_eq_floor mn mx x hlt (listMin_le hmn x hx)

/-- Witness for C1 (amended) at the concrete population `[0, 2, 3]`. -/
theorem rescale_eq_floor_of_minmax_witness :
    rescaleScores ([0, 2, 3] : List ℚ) =
      ([0, 2, 3] : List ℚ).map (fun x => ⌊(x - 0) / (3 - 0) * 1000⌋) :=
  rescale_eq_floor_of_minmax [0, 2, 3] 0 3 (by decide) (by decide) (by decide)

/-- C4: for a population of at least two wallets whose raw scores are not
all equal, the score table is the pointwise rescaling of the raw scores;
every credit score lies in `[0, 1000]`; every wallet attaining the
population minimum gets exactly `0`, every wallet attaining the maximum
gets exactly `1000`, and equal raw scores get identical credit scores. -/
theorem rescale_range_invariant {K : Type} [LinearOrderedField K] [FloorRing K]
    (xs : List K) (mn mx : K) (hlen : 2 ≤ xs.length)
    (hmn : listMin xs = some mn) (hmx : listMax xs = some mx)
    (hne : ∃ a ∈ xs, ∃ b ∈ xs, a ≠ b) :
    rescaleScores xs = xs.map (rescaleOne mn mx) ∧
    (∀ x ∈ xs, 0 ≤ rescaleOne mn mx x ∧ rescaleOne mn mx x ≤ 1000) ∧
    (∀ x ∈ xs, x = mn → rescaleOne mn mx x = 0) ∧
    (∀ x ∈ xs, x = mx → rescaleOne mn mx x = 1000) ∧
    (∀ x ∈ xs, ∀ y ∈ xs, x = y → rescaleOne mn mx x = rescaleOne mn mx y) := by
  obtain ⟨a, ha, b, hb, hab⟩ := hne
  have hmnmx : mn ≠ mx := by
    intro he
    apply hab
    have ha2 := listMax_ge hmx a ha
    have hb2 := listMax_ge hmx b hb
    rw [← he] at ha2 hb2
    rw [le_antisymm ha2 (listMin_le hmn a ha), le_antisymm hb2 (listMin_le hmn b hb)]
  have hlt : mn < mx := lt_of_le_of_ne (listMin_le hmn mx (listMax_mem hmx)) hmnmx
  have hpos : (0 : K) < mx - mn := sub_pos.mpr hlt
  refine ⟨by rw [rescaleScores, hmn, hmx], ?_, ?_, ?_, ?_⟩
  · intro x hx
    rw [rescaleOne_eq_floor mn mx x hlt (listMin_le hmn x hx)]
    constructor
    · exact Int.floor_nonneg.mpr
        (mul_nonneg (div_nonneg (sub_nonneg.mpr (listMin_le hmn x hx)) hpos.le) (by norm_num))
    · have hdiv : (x - mn) / (mx - mn) ≤ 1 :=
        (div_le_one hpos).mpr (sub_le_sub_right (listMax_ge hmx x hx) mn)
      have ht : (x - mn) / (mx - mn) * 1000 ≤ 1000 := by
        calc (x - mn) / (mx - mn) * 1000 ≤ 1 * 1000 :=
              mul_le_mul_of_nonneg_right hdiv (by norm_num)
          _ = 1000 := one_mul 1000
      calc ⌊(x - mn) / (mx - mn) * 1000⌋ ≤ ⌊(1000 : K)⌋ := Int.floor_le_floor ht
        _ = 1000 := floor_thousand
  · intro x hx hxmn
    rw [rescaleOne_eq_floor mn mx x hlt (listMin_le hmn x hx), hxmn, sub_self, zero_div,
      zero_mul, Int.floor_zero]
  · intro x hx hxmx
    rw [rescaleOne_eq_floor mn mx x hlt (listMin_le hmn x hx), hxmx,
      div_self (sub_ne_zero.mpr hlt.ne'), one_mul, floor_thousand]
  · intro x _ y _ hxy
    rw [hxy]

/-- Witness for C4 at the population `[0, 2, 3]`: the minimum gets `0`
and the maximum gets `1000`. -/
theorem rescale_range_invariant_witness :
    rescaleOne (0 : ℚ) 3 3 = 1000 ∧ rescaleOne (0 : ℚ) 3 0 = 0 :=
  ⟨(rescale_range_invariant [0, 2, 3] 0 3 (by decide) (by decide) (by decide)
      (by decide)).2.2.2.1 3 (by decide) rfl,
   (rescale_range_invariant [0, 2, 3] 0 3 (by decide) (by decide) (by decide)
      (by decide)).2.2.1 0 (by decide) rfl⟩

/-- C5: on a non-empty population all of whose raw scores are equal
(`max_raw = min_raw`), the scaler does not fail (the zero data range is
replaced by `1`) and every wallet's credit score is `0`. -/
theorem degenerate_population_all_zero {K : Type} [LinearOrderedField K] [FloorRing K]
    (xs : List K) (hne : xs ≠ []) (hall : ∀ x ∈ xs, ∀ y ∈ xs, x = y) :
    rescaleScores xs = xs.map (fun _ => (0 : ℤ)) := by
  obtain ⟨a, l, rfl⟩ := List.exists_cons_of_ne_nil hne
  have hmn : listMin (a :: l) = some (l.foldl min a) := rfl
  have hmx : listMax (a :: l) = some (l.foldl max a) := rfl
  have hmnmem : l.foldl min a ∈ a :: l := listMin_mem hmn
  have hmxmem : l.foldl max a ∈ a :: l := listMax_mem hmx
  have heq : l.foldl max a = l.foldl min a := hall _ hmxmem _ hmnmem
  rw [rescaleScores, hmn, hmx]
  apply List.map_congr_left
  intro x hx
  have hx_eq : x = l.foldl min a := hall x hx _ hmnmem
  rw [rescaleOne, mmMin, mmScale, heq, sub_self, handleZeros, if_pos rfl, hx_eq]
  have hval : l.foldl min a * (1000 / 1) + (0 - l.foldl min a * (1000 / 1)) = 0 := by ring
  rw [hval, npTruncInt, if_neg (lt_irrefl 0), Int.floor_zero]

/-- Witness for C5 at the degenerate population `[5, 5]`. -/
theorem degenerate_population_all_zero_witness :
    rescaleScores ([5, 5] : List ℚ) = ([5, 5] : List ℚ).map (fun _ => (0 : ℤ)) :=
  degenerate_population_all_zero [5, 5] (by decide) (by decide)

/-- C7: holding every other feature fixed, increasing the liquidation
count by exactly one decreases the raw score by exactly `250`. -/
theorem liquidation_penalty_exact (f : WalletFeatures) :
    rawScore { f with liquidation_count := f.liquidation_count + 1 } = rawScore f - 250 := by
  simp only [rawScore]
  push_cast
  ring

/-- A record whose `timestamp` field is present but not convertible by
`pd.to_datetime(-, unit='s')` (e.g. a non-numeric string). -/
def badTsRecord : RawTransactionRecord :=
  { userWallet := some "w", timestamp := some .tbad, action := some (.astr "deposit"),
    amount := some (.val 1), assetPriceUSD := some (.plain (.val 1)) }

/-- C2 (counterexample): a record with a malformed `timestamp` field does
NOT yield a `NormalizedTransaction` with `amountUSD = 0.0` — the
`pd.to_datetime` call sits outside the inner `try`, its exception
escapes the record's processing, and the whole batch load fails. -/
theorem parse_malformed_timestamp_aborts :
    parseRecord badTsRecord = .error () ∧ loadAndParse [badTsRecord] = none :=
  ⟨rfl, rfl⟩

/-- C2 (amended): any error in the numeric extraction of `amount` or
`assetPriceUSD` is caught internally and the record still yields a
`NormalizedTransaction` with `amountUSD = 0.0`; but this tolerance does
not extend to the `timestamp` and `action` fields — a record whose
`timestamp` is present and non-numeric, or whose `action` is present and
not a string, raises out of the per-record parse and aborts the batch. -/
theorem parse_ok_of_wellformed_ts_action (r : RawTransactionRecord)
    (ht : r.timestamp ≠ some .tbad) (ha : r.action ≠ some .abad) :
    ∃ tx : NormalizedTransaction, parseRecord r = .ok tx ∧
      ((extractAmount r.amount = none ∨ extractPrice r.assetPriceUSD = none) →
        tx.amountUSD = 0) := by
  have hts : ∃ ts, parseTimestamp r.timestamp = .ok ts := by
    cases h : r.timestamp with
    | none => exact ⟨none, rfl⟩
    | some t =>
      cases t with
      | tnum n => exact ⟨some n, rfl⟩
      | tbad => exact absurd h ht
  have hact : ∃ a, parseAction r.action = .ok a := by
    cases h : r.action with
    | none => exact ⟨pyLower "unknown", rfl⟩
    | some t =>
      cases t with
      | astr s => exact ⟨pyLower s, rfl⟩
      | abad => exact absurd h ha
  obtain ⟨ts, hts⟩ := hts
  obtain ⟨act, hact⟩ := hact
  refine ⟨{ userAddress := r.userWallet, timestamp := ts, action := act,
            amountUSD := computeAmountUSD r }, ?_, ?_⟩
  · rw [parseRecord, hts, hact]
    rfl
  · intro h
    show computeAmountUSD r = 0
    rcases h with h | h
    · cases hp : extractPrice r.assetPriceUSD <;> rw [computeAmountUSD, h, hp]
    · cases ha' : extractAmount r.amount <;> rw [computeAmountUSD, ha', h]

/-- A record whose `amount` string is not a valid decimal. -/
def badAmountRecord : RawTransactionRecord :=
  { userWallet := some "w", timestamp := some (.tnum 5), action := some (.astr "Deposit"),
    amount := some .bad, assetPriceUSD := some (.plain (.val 2)) }

/-- Witness for C2 (amended): a record with a malformed `amount` and a
well-formed timestamp/action still parses, with `amountUSD = 0`. -/
theorem parse_ok_of_wellformed_ts_action_witness :
    ∃ tx : NormalizedTransaction, parseRecord badAmountRecord = .ok tx ∧
      ((extractAmount badAmountRecord.amount = none ∨
        extractPrice badAmountRecord.assetPriceUSD = none) → tx.amountUSD = 0) :=
  parse_ok_of_wellformed_ts_action badAmountRecord (by decide) (by decide)

/-- A record whose decimal `amount` string is negative. -/
def negAmountRecord : RawTransactionRecord :=
  { userWallet := some "w", timestamp := some (.tnum 0), action := some (.astr "deposit"),
    amount := some (.val (-1)), assetPriceUSD := some (.plain (.val 1)) }

/-- C3 (counterexample): nothing validates the sign of the decimal
strings, so a record with `amount = "-1"`, `price = "1"` parses to a
`NormalizedTransaction` whose `amountUSD = -1 < 0`: the field is NOT
guaranteed non-negative. -/
theorem amountUSD_negative_counterexample :
    parseRecord negAmountRecord = .ok
      { userAddress := some "w", timestamp := some 0, action := "deposit",
        amountUSD := -1 * 1 } ∧ ((-1 : ℚ) * 1 < 0) :=
  ⟨rfl, by norm_num⟩

/-- C3 (amended): `amountUSD` equals `amount × price` when both extract,
and `0.0` when either extraction fails; it is non-negative whenever the
extracted amount and price are both non-negative (but the code does not
enforce non-negativity of the inputs). -/
theorem amountUSD_product_or_zero (r : RawTransactionRecord) :
    (∀ a p, extractAmount r.amount = some a → extractPrice r.assetPriceUSD = some p →
      computeAmountUSD r = a * p) ∧
    ((extractAmount r.amount = none ∨ extractPrice r.assetPriceUSD = none) →
      computeAmountUSD r = 0) ∧
    (∀ a p, extractAmount r.amount = some a → extractPrice r.assetPriceUSD = some p →
      0 ≤ a → 0 ≤ p → 0 ≤ computeAmountUSD r) := by
  refine ⟨?_, ?_, ?_⟩
  · intro a p ha hp
    rw [computeAmountUSD, ha, hp]
  · intro h
    rcases h with h | h
    · cases hp : extractPrice r.assetPriceUSD <;> rw [computeAmountUSD, h, hp]
    · cases ha : extractAmount r.amount <;> rw [computeAmountUSD, ha, h]
  · intro a p ha hp ha0 hp0
    rw [computeAmountUSD, ha, hp]
    exact mul_nonneg ha0 hp0

/-- A benign record used to witness the product case of C3. -/
def plainRecord : RawTransactionRecord :=
  { userWallet := some "w", timestamp := some (.tnum 0), action := some (.astr "deposit"),
    amount := some (.val 2), assetPriceUSD := some (.plain (.val 3)) }

/-- Witness for C3 (amended) at a record with `amount = "2"`,
`price = "3"`. -/
theorem amountUSD_product_or_zero_witness : computeAmountUSD plainRecord = 2 * 3 :=
  (amountUSD_product_or_zero plainRecord).1 2 3 rfl rfl

/-- The parsed transaction of a borrow record with `amount = "-1"`,
`price = "1"`. -/
def negBorrowTx : NormalizedTransaction :=
  { userAddress := some "w", timestamp := some 0, action := "borrow", amountUSD := -1 * 1 }

/-- A borrow record with a negative decimal amount. -/
def negBorrowRecord : RawTransactionRecord :=
  { userWallet := some "w", timestamp := some (.tnum 0), action := some (.astr "borrow"),
    amount := some (.val (-1)), assetPriceUSD := some (.plain (.val 1)) }

/-- C8 (counterexample): a wallet whose only transaction is a borrow of
`amountUSD = -1` (reachable, since decimal amounts are not
sign-checked) has `sum_borrow = -1`, so the `repaymentRatio` denominator
`sum_borrow + 1` is exactly `0`: the `+1` guard does not rule out
division by zero for every wallet (numpy float division then yields
`inf`/`NaN`, not a finite ratio). -/
theorem ratio_denominator_zero_counterexample :
    parseRecord negBorrowRecord = .ok negBorrowTx ∧
    (engineerFeatures [negBorrowTx]).sum_borrow + 1 = 0 := by
  refine ⟨rfl, ?_⟩
  simp [engineerFeatures, sumAction, negBorrowTx]

/-- C8 (amended): for every wallet whose borrow and deposit sums are
non-negative (in particular a wallet with `sum_borrow = 0` and
`sum_deposit = 0`), both ratio denominators are nonzero — no division
by zero — and the ratio fields are genuine quotients of the sums. -/
theorem ratios_divide_safely_of_nonneg_sums (txs : List NormalizedTransaction)
    (hb : 0 ≤ sumAction txs "borrow") (hd : 0 ≤ sumAction txs "deposit") :
    sumAction txs "borrow" + 1 ≠ 0 ∧ sumAction txs "deposit" + 1 ≠ 0 ∧
    (engineerFeatures txs).repayment_ratio * (sumAction txs "borrow" + 1) =
      sumAction txs "repay" ∧
    (engineerFeatures txs).ltv_proxy * (sumAction txs "deposit" + 1) =
      sumAction txs "borrow" := by
  have hb1 : sumAction txs "borrow" + 1 ≠ 0 := by positivity
  have hd1 : sumAction txs "deposit" + 1 ≠ 0 := by positivity
  refine ⟨hb1, hd1, ?_, ?_⟩
  · show sumAction txs "repay" / (sumAction txs "borrow" + 1) * (sumAction txs "borrow" + 1)
      = sumAction txs "repay"
    exact div_mul_cancel₀ _ hb1
  · show sumAction txs "borrow" / (sumAction txs "deposit" + 1) * (sumAction txs "deposit" + 1)
      = sumAction txs "borrow"
    exact div_mul_cancel₀ _ hd1

/-- Witness for C8 (amended): the empty wallet group has
`sum_borrow = sum_deposit = 0` and both denominators nonzero. -/
theorem ratios_divide_safely_of_nonneg_sums_witness :
    sumAction [] "borrow" + 1 ≠ 0 ∧ sumAction [] "deposit" + 1 ≠ 0 ∧
    (engineerFeatures []).repayment_ratio * (sumAction [] "borrow" + 1) =
      sumAction [] "repay" ∧
    (engineerFeatures []).ltv_proxy * (sumAction [] "deposit" + 1) =
      sumAction [] "borrow" :=
  ratios_divide_safely_of_nonneg_sums [] (by norm_num [sumAction]) (by norm_num [sumAction])

/-- A second record with a malformed timestamp, for the cardinality
counterexample. -/
def badTsRecord2 : RawTransactionRecord :=
  { userWallet := some "v", timestamp := some .tbad, action := some (.astr "borrow"),
    amount := none, assetPriceUSD := none }

/-- C9 (counterexample): an input batch of `N = 1` records containing a
malformed timestamp produces NO transaction store at all (the load
fails), so it is not the case that every batch of `N` raw records
yields a store of exactly `N` normalized transactions. -/
theorem cardinality_loss_counterexample :
    loadAndParse [badTsRecord2] = none ∧ [badTsRecord2].length = 1 :=
  ⟨rfl, rfl⟩

/-- C9 (amended): whenever the parsing loop succeeds (no record raises on
its timestamp or action field), the transaction store contains exactly
one normalized transaction per raw record — cardinality is preserved. -/
theorem store_length_eq_of_parse_success (records : List RawTransactionRecord)
    (store : List NormalizedTransaction) (h : loadAndParse records = some store) :
    store.length = records.length := by
  induction records generalizing store with
  | nil =>
    rw [loadAndParse] at h
    simp only [List.mapM_nil, pure, Option.some_inj] at h
    exact congrArg List.length h.symm
  | cons r rs ih =>
    rw [loadAndParse, List.mapM_cons] at h
    cases hp : (parseRecord r).toOption with
    | none => rw [hp] at h; simp at h
    | some tx =>
      rw [hp] at h
      cases hm : rs.mapM (fun r => (parseRecord r).toOption) with
      | none => rw [hm] at h; simp at h
      | some txs =>
        rw [hm] at h
        simp only [Option.bind_eq_bind, Option.some_bind, pure, Option.some_inj] at h
        rw [← h, List.length_cons, List.length_cons, ih txs hm]

/-- A well-formed record with an absent price (degrading to zero value). -/
def noPriceRecord : RawTransactionRecord :=
  { userWallet := some "w", timestamp := some (.tnum 0), action := some (.astr "deposit"),
    amount := some (.val 5), assetPriceUSD := none }

/-- Witness for C9 (amended) on a concrete two-record batch. -/
theorem store_length_eq_of_parse_success_witness :
    ([{ userAddress := some "w", timestamp := some 0, action := "deposit", amountUSD := 0 },
      { userAddress := some "v", timestamp := none, action := "unknown", amountUSD := 0 }] :
        List NormalizedTransaction).length =
      [noPriceRecord,
        { userWallet := some "v", timestamp := none, action := none,
          amount := none, assetPriceUSD := none }].length :=
  store_length_eq_of_parse_success _ _ rfl

/-- C10: a record whose `userWallet` is absent parses to a transaction
with a null wallet key; such transactions belong to no group of
`groupby('userAddress')` (pandas drops null keys), every group key in
the score table comes from a transaction with a present wallet address,
and the score table has exactly the group keys as its row keys — so no
feature vector and no credit score is produced for null-wallet records. -/
theorem null_wallet_excluded (r : RawTransactionRecord) (tx : NormalizedTransaction)
    (hw : r.userWallet = none) (hp : parseRecord r = .ok tx)
    (txs : List NormalizedTransaction) :
    tx.userAddress = none ∧
    (∀ w : String, tx ∉ walletTxs txs w) ∧
    (∀ w ∈ walletKeys txs, ∃ t ∈ txs, t.userAddress = some w) ∧
    (creditScores txs).map Prod.fst = walletKeys txs := by
  have h1 : tx.userAddress = none := by
    rw [parseRecord] at hp
    cases hts : parseTimestamp r.timestamp <;> rw [hts] at hp
    case error e => exact Except.noConfusion hp
    case ok ts =>
      cases hact : parseAction r.action <;> rw [hact] at hp
      case error e => exact Except.noConfusion hp
      case ok act =>
        have h2 := Except.ok.inj hp
        rw [← h2, hw]
  refine ⟨h1, ?_, ?_, ?_⟩
  · intro w hmem
    simp [walletTxs, List.mem_filter, h1] at hmem
  · intro w hwk
    rw [walletKeys, mem_sortKeys, List.mem_dedup] at hwk
    exact List.mem_filterMap.mp hwk
  · rw [creditScores]
    apply List.map_fst_zip
    rw [rescaleScores_length, populationRaws, List.length_map]

/-- A record with no `userWallet` field. -/
def nullWalletRecord : RawTransactionRecord :=
  { userWallet := none, timestamp := some (.tnum 0), action := some (.astr "deposit"),
    amount := some (.val 5), assetPriceUSD := none }

/-- The parse of `nullWalletRecord` (its absent price degrades the value
to `0`). -/
def nullWalletTx : NormalizedTransaction :=
  { userAddress := none, timestamp := some 0, action := "deposit", amountUSD := 0 }

/-- A store holding the null-wallet transaction next to an attributed one. -/
def mixedStore : List NormalizedTransaction :=
  [nullWalletTx,
   { userAddress := some "A", timestamp := some 0, action := "deposit", amountUSD := 0 }]

/-- Witness for C10 on a concrete record and store. -/
theorem null_wallet_excluded_witness :
    nullWalletTx.userAddress = none ∧
    nullWalletTx ∉ walletTxs mixedStore "A" ∧
    (creditScores mixedStore).map Prod.fst = walletKeys mixedStore :=
  ⟨(null_wallet_excluded nullWalletRecord nullWalletTx rfl rfl mixedStore).1,
   (null_wallet_excluded nullWalletRecord nullWalletTx rfl rfl mixedStore).2.1 "A",
   (null_wallet_excluded nullWalletRecord nullWalletTx rfl rfl mixedStore).2.2.2⟩

/-- The end-to-end two-wallet input of the spec: Wallet A deposits $1000
at `t = 0` and repays $500 at `t = 10` days; Wallet B borrows $1000 at
`t = 0` and suffers a liquidation call at `t = 1` day. -/
def c6records : List RawTransactionRecord :=
  [{ userWallet := some "A", timestamp := some (.tnum 0), action := some (.astr "deposit"),
     amount := some (.val 1000), assetPriceUSD := some (.plain (.val 1)) },
   { userWallet := some "A", timestamp := some (.tnum 864000), action := some (.astr "repay"),
     amount := some (.val 500), assetPriceUSD := some (.plain (.val 1)) },
   { userWallet := some "B", timestamp := some (.tnum 0), action := some (.astr "borrow"),
     amount := some (.val 1000), assetPriceUSD := some (.plain (.val 1)) },
   { userWallet := some "B", timestamp := some (.tnum 86400),
     action := some (.astr "liquidationcall"), amount := none, assetPriceUSD := none }]

/-- The transaction store the parser builds from `c6records` (the
`amountUSD` values are written as the parser's unreduced products). -/
def c6txs : List NormalizedTransaction :=
  [{ userAddress := some "A", timestamp := some 0, action := "deposit",
     amountUSD := 1000 * 1 },
   { userAddress := some "A", timestamp := some 864000, action := "repay",
     amountUSD := 500 * 1 },
   { userAddress := some "B", timestamp := some 0, action := "borrow",
     amountUSD := 1000 * 1 },
   { userAddress := some "B", timestamp := some 86400, action := "liquidationcall",
     amountUSD := 0 }]

/-- Wallet A's feature vector on that input. -/
def c6featA : WalletFeatures :=
  { account_age_days := 10, sum_deposit := 1000, sum_borrow := 0, sum_repay := 500,
    liquidation_count := 0, repayment_ratio := 500, ltv_proxy := 0 }

/-- Wallet B's feature vector on that input. -/
def c6featB : WalletFeatures :=
  { account_age_days := 1, sum_deposit := 0, sum_borrow := 1000, sum_repay := 0,
    liquidation_count := 1, repayment_ratio := 0, ltv_proxy := 1000 }

/-- C6: on the spec's two-wallet end-to-end example, Wallet A's raw score
strictly exceeds Wallet B's, and the pipeline outputs credit score
`1000` for A and `0` for B. -/
theorem end_to_end_two_wallet_example :
    rawScore (engineerFeatures (walletTxs c6txs "B")) <
      rawScore (engineerFeatures (walletTxs c6txs "A")) ∧
    runPipeline c6records = some [("A", 1000), ("B", 0)] := by
  have hload : loadAndParse c6records = some c6txs := by rfl
  have hA : engineerFeatures (walletTxs c6txs "A") = c6featA := by
    simp +decide [engineerFeatures, sumAction, countAction, accountAge, walletTimestamps,
      listMin, listMax, walletTxs, c6txs, c6featA]
  have hB : engineerFeatures (walletTxs c6txs "B") = c6featB := by
    simp +decide [engineerFeatures, sumAction, countAction, accountAge, walletTimestamps,
      listMin, listMax, walletTxs, c6txs, c6featB]
  have hkeys : walletKeys c6txs = ["A", "B"] := by decide
  have hlt : rawScore c6featB < rawScore c6featA := by
    simp only [rawScore, c6featA, c6featB]
    push_cast
    norm_num
    linarith
  have hraws : populationRaws c6txs = [rawScore c6featA, rawScore c6featB] := by
    rw [populationRaws, hkeys]
    simp [hA, hB]
  refine ⟨by rw [hA, hB]; exact hlt, ?_⟩
  rw [runPipeline, hload]
  show some (creditScores c6txs) = some [("A", 1000), ("B", 0)]
  rw [creditScores, hkeys, hraws,
    rescaleScores_pair (rawScore c6featA) (rawScore c6featB) hlt]
  rfl

end AaveScoring
